import Mathlib

/-! Verification development for the `osars` schedule-API client library.

The definitions below shallowly embed the Rust sources: the chrono-backed
date codec of `src/utils/date_serde.rs`, the request executor of
`src/client.rs`, the query builders of `src/api/*.rs`, and the serde-derive
decoding of the entity models under `src/models/`.  Machine integers are
modelled as `Nat`/`Int` with the bounds the source checks made explicit.
-/

namespace Osars

/-! ## Date codec (`src/utils/date_serde.rs`)

`serialize` formats a `chrono::DateTime<Utc>` with `"%Y-%m-%d"`.
`deserialize` appends `" 00:00:00"` to the input and parses it with
`Utc.datetime_from_str` under the format `"%Y-%m-%d %H:%M:%S"`.  The
parser below is chrono's `format::parse` specialised to that fixed item
sequence `[Numeric Year, Literal "-", Numeric Month, Literal "-",
Numeric Day, Space, Numeric Hour, Literal ":", Numeric Minute,
Literal ":", Numeric Second]`:

* a numeric item first strips leading whitespace, then reads at least one
  and at most `max` ASCII digits (`max = 4` for an unsigned year, `2` for
  the other fields); a signed year (leading `-` or `+`) reads unboundedly
  many digits; accumulation past `i64::MAX` is an error;
* a literal item must match exactly; a space item strips zero or more
  whitespace characters; leftover input after the last item is an error;
* the parsed fields pass `Parsed::set_year` (an `i32` range check) and are
  assembled by `NaiveDate::from_ymd_opt` plus the time validity checks,
  which enforce the calendar and chrono's year range. -/

/-- Calendar timestamp standing for `chrono::DateTime<Utc>` (sub-second
precision is irrelevant to the codec and omitted). -/
structure DateTime where
  year : Int
  month : Nat
  day : Nat
  hour : Nat
  minute : Nat
  second : Nat
  deriving Repr, DecidableEq

def digitVal (c : Char) : Nat := c.toNat - 48

def isWs (c : Char) : Bool := c.isWhitespace

def trimLeft : List Char → List Char
  | [] => []
  | c :: cs => if isWs c then trimLeft cs else c :: cs

/-- Read up to `mx` leading ASCII digits. -/
def takeDigits : Nat → List Char → List Char × List Char
  | 0, s => ([], s)
  | _ + 1, [] => ([], [])
  | mx + 1, c :: cs =>
    if c.isDigit then
      let p := takeDigits mx cs
      (c :: p.1, p.2)
    else ([], c :: cs)

/-- Read all leading ASCII digits (the signed-year case, `max = usize::MAX`). -/
def takeDigitsAll : List Char → List Char × List Char
  | [] => ([], [])
  | c :: cs =>
    if c.isDigit then
      let p := takeDigitsAll cs
      (c :: p.1, p.2)
    else ([], c :: cs)

def digitsVal (ds : List Char) : Nat := ds.foldl (fun a c => a * 10 + digitVal c) 0

def i64Max : Nat := 9223372036854775807

/-- chrono `parse_number` with `min = 1` and a finite `max`: at least one
digit, at most `mx`, failing (OUT_OF_RANGE) past `i64::MAX`. -/
def parseNum (mx : Nat) (s : List Char) : Option (Nat × List Char) :=
  let p := takeDigits mx s
  if p.1.isEmpty then none
  else if digitsVal p.1 ≤ i64Max then some (digitsVal p.1, p.2) else none

/-- chrono `parse_number` with `min = 1` and unbounded `max`. -/
def parseNumAll (s : List Char) : Option (Nat × List Char) :=
  let p := takeDigitsAll s
  if p.1.isEmpty then none
  else if digitsVal p.1 ≤ i64Max then some (digitsVal p.1, p.2) else none

/-- chrono's `Numeric(Year)` item: strip leading whitespace; a year with an
explicit sign reads unboundedly many digits, an unsigned one at most four. -/
def parseYearField (s : List Char) : Option (Int × List Char) :=
  match trimLeft s with
  | [] => none
  | c :: rest =>
    if c = '-' then
      match parseNumAll rest with
      | none => none
      | some p => some (-(p.1 : Int), p.2)
    else if c = '+' then
      match parseNumAll rest with
      | none => none
      | some p => some ((p.1 : Int), p.2)
    else
      match parseNum 4 (c :: rest) with
      | none => none
      | some p => some ((p.1 : Int), p.2)

/-- chrono's two-digit numeric items (month, day, hour, minute, second):
strip leading whitespace, then read one or two digits. -/
def parseNumField (mx : Nat) (s : List Char) : Option (Nat × List Char) :=
  parseNum mx (trimLeft s)

/-- chrono's `Literal` item: the next character must match exactly. -/
def expectLit (c : Char) : List Char → Option (List Char)
  | [] => none
  | c' :: rest => if c' = c then some rest else none

/-- chrono `format::parse` on the item sequence of
`"%Y-%m-%d %H:%M:%S"`, including the trailing-input (TOO_LONG) check. -/
def parseYmdHms (s : List Char) : Option (Int × Nat × Nat × Nat × Nat × Nat) :=
  match parseYearField s with
  | none => none
  | some (y, s1) =>
    match expectLit '-' s1 with
    | none => none
    | some s2 =>
      match parseNumField 2 s2 with
      | none => none
      | some (mo, s3) =>
        match expectLit '-' s3 with
        | none => none
        | some s4 =>
          match parseNumField 2 s4 with
          | none => none
          | some (d, s5) =>
            match parseNumField 2 (trimLeft s5) with
            | none => none
            | some (h, s6) =>
              match expectLit ':' s6 with
              | none => none
              | some s7 =>
                match parseNumField 2 s7 with
                | none => none
                | some (mi, s8) =>
                  match expectLit ':' s8 with
                  | none => none
                  | some s9 =>
                    match parseNumField 2 s9 with
                    | none => none
                    | some (sec, s10) =>
                      if s10.isEmpty then some (y, mo, d, h, mi, sec) else none

/-- Proleptic-Gregorian leap-year rule (chrono `YearFlags::from_year`). -/
def isLeapYear (y : Int) : Bool :=
  y % 4 == 0 && (y % 100 != 0 || y % 400 == 0)

def daysInMonth (y : Int) (m : Nat) : Nat :=
  if m = 2 then if isLeapYear y then 29 else 28
  else if m = 4 ∨ m = 6 ∨ m = 9 ∨ m = 11 then 30
  else 31

def chronoMinYear : Int := -262144
def chronoMaxYear : Int := 262143
def i32Min : Int := -2147483648
def i32Max : Int := 2147483647

/-- Deserializer of `date_serde.rs`: append `" 00:00:00"` and parse with
`Utc.datetime_from_str` and format `"%Y-%m-%d %H:%M:%S"` (any chrono
failure is surfaced through `serde::de::Error::custom`, so `none` stands
for the custom deserialization error). -/
def date_serde.deserialize (s : String) : Option DateTime :=
  match parseYmdHms (s.data ++
      [' ', '0', '0', ':', '0', '0', ':', '0', '0']) with
  | none => none
  | some (y, mo, d, h, mi, sec) =>
    if i32Min ≤ y ∧ y ≤ i32Max then
      if chronoMinYear ≤ y ∧ y ≤ chronoMaxYear ∧
          1 ≤ mo ∧ mo ≤ 12 ∧ 1 ≤ d ∧ d ≤ daysInMonth y mo ∧
          h ≤ 23 ∧ mi ≤ 59 ∧ sec ≤ 59 then
        some ⟨y, mo, d, h, mi, sec⟩
      else none
    else none

/-- Standard decimal digit expansion (what Rust's `write!("{}")` emits). -/
def natToDecimal (n : Nat) : List Char :=
  if _h : n < 10 then [Nat.digitChar n]
  else natToDecimal (n / 10) ++ [Nat.digitChar (n % 10)]
  termination_by n
  decreasing_by exact Nat.div_lt_self (by omega) (by omega)

/-- Zero-pad a decimal expansion on the left to width `w`
(Rust's `write!("{:0w$}")`). -/
def padList (w : Nat) (n : Nat) : List Char :=
  let ds := natToDecimal n
  List.replicate (w - ds.length) '0' ++ ds

/-- chrono formatting of `Numeric(Year)` with `Pad::Zero`: years in
`[0, 10000)` print as four zero-padded digits; any other year prints an
explicit sign followed by the digits zero-padded to width four. -/
def formatYearChars (y : Int) : List Char :=
  if 0 ≤ y ∧ y < 10000 then padList 4 y.toNat
  else if y < 0 then '-' :: padList 4 y.natAbs
  else '+' :: padList 4 y.toNat

/-- Serializer of `date_serde.rs`: `date.format("%Y-%m-%d").to_string()`. -/
def date_serde.serialize (t : DateTime) : String :=
  String.mk (formatYearChars t.year ++
    '-' :: padList 2 t.month ++ '-' :: padList 2 t.day)

/-- Strings matching the fixed `YYYY-MM-DD` pattern exactly: ten
characters, four digits, hyphen, two digits, hyphen, two digits, denoting
a real proleptic-Gregorian calendar date. -/
def isValidDateString (s : String) : Bool :=
  match s.data with
  | [y3, y2, y1, y0, ha, m1, m0, hb, d1, d0] =>
    y3.isDigit && y2.isDigit && y1.isDigit && y0.isDigit &&
    m1.isDigit && m0.isDigit && d1.isDigit && d0.isDigit &&
    ha == '-' && hb == '-' &&
    decide (1 ≤ digitsVal [m1, m0]) && decide (digitsVal [m1, m0] ≤ 12) &&
    decide (1 ≤ digitsVal [d1, d0]) &&
    decide (digitsVal [d1, d0] ≤
      daysInMonth ((digitsVal [y3, y2, y1, y0] : Nat) : Int) (digitsVal [m1, m0]))
  | _ => false

/-- Timestamps representable as a `chrono::DateTime<Utc>`. -/
def validDateTime (t : DateTime) : Prop :=
  chronoMinYear ≤ t.year ∧ t.year ≤ chronoMaxYear ∧
  1 ≤ t.month ∧ t.month ≤ 12 ∧ 1 ≤ t.day ∧ t.day ≤ daysInMonth t.year t.month ∧
  t.hour ≤ 23 ∧ t.minute ≤ 59 ∧ t.second ≤ 59

instance (t : DateTime) : Decidable (validDateTime t) := by
  unfold validDateTime; infer_instance

/-! ## JSON values and serde-style decoding

The executor decodes response bodies with `serde_json::from_str::<T>`.
We model JSON values, a parser for the JSON subset the API exchanges
(null, booleans, integer numbers, escape-free strings, arrays, objects),
and the derived `Deserialize` impls of the entity models as decoders from
JSON values.  serde_json diagnostics name the kind and position of the
failure and never embed the input text; the modelled diagnostics mirror
that by being input-independent messages. -/

inductive Json where
  | null
  | bool (b : Bool)
  | num (n : Int)
  | str (s : String)
  | arr (elems : List Json)
  | obj (fields : List (String × Json))

def jsonWs (c : Char) : Bool := c == ' ' || c == '\t' || c == '\n' || c == '\r'

def skipJsonWs : List Char → List Char
  | [] => []
  | c :: cs => if jsonWs c then skipJsonWs cs else c :: cs

/-- Scan a JSON string body up to the closing quote (escape sequences are
outside the modelled subset). -/
def scanString : List Char → Option (String × List Char)
  | [] => none
  | c :: cs =>
    if c = '"' then some ("", cs)
    else if c = '\\' then none
    else
      match scanString cs with
      | none => none
      | some (str, rest) => some (String.mk (c :: str.data), rest)

/-- Scan an unsigned JSON integer (no leading zeros). -/
def scanJsonInt (s : List Char) : Option (Nat × List Char) :=
  let p := takeDigitsAll s
  match p.1 with
  | [] => none
  | ['0'] => some (0, p.2)
  | '0' :: _ => none
  | ds => some (digitsVal ds, p.2)

def expectChars : List Char → List Char → Option (List Char)
  | [], s => some s
  | _ :: _, [] => none
  | e :: es, c :: cs => if c = e then expectChars es cs else none

mutual

/-- Recursive-descent JSON value parser (fuelled; callers strip leading
whitespace). -/
def parseJsonValue : Nat → List Char → Option (Json × List Char)
  | 0, _ => none
  | fuel + 1, s =>
    match s with
    | [] => none
    | c :: cs =>
      if c = '"' then
        match scanString cs with
        | none => none
        | some (str, rest) => some (.str str, rest)
      else if c = '[' then
        match skipJsonWs cs with
        | ']' :: rest => some (.arr [], rest)
        | s1 =>
          match parseJsonElems fuel s1 with
          | none => none
          | some (vs, rest) => some (.arr vs, rest)
      else if c = '{' then
        match skipJsonWs cs with
        | '}' :: rest => some (.obj [], rest)
        | s1 =>
          match parseJsonMembers fuel s1 with
          | none => none
          | some (ms, rest) => some (.obj ms, rest)
      else if c = 't' then
        match expectChars ['r', 'u', 'e'] cs with
        | none => none
        | some rest => some (.bool true, rest)
      else if c = 'f' then
        match expectChars ['a', 'l', 's', 'e'] cs with
        | none => none
        | some rest => some (.bool false, rest)
      else if c = 'n' then
        match expectChars ['u', 'l', 'l'] cs with
        | none => none
        | some rest => some (.null, rest)
      else if c = '-' then
        match scanJsonInt cs with
        | none => none
        | some (n, rest) => some (.num (-(n : Int)), rest)
      else if c.isDigit then
        match scanJsonInt (c :: cs) with
        | none => none
        | some (n, rest) => some (.num (n : Int), rest)
      else none

/-- Comma-separated array elements, terminated by a closing bracket. -/
def parseJsonElems : Nat → List Char → Option (List Json × List Char)
  | 0, _ => none
  | fuel + 1, s =>
    match parseJsonValue fuel s with
    | none => none
    | some (v, r1) =>
      match skipJsonWs r1 with
      | ',' :: r2 =>
        match parseJsonElems fuel (skipJsonWs r2) with
        | none => none
        | some (vs, rest) => some (v :: vs, rest)
      | ']' :: r2 => some ([v], r2)
      | _ => none

/-- Comma-separated object members, terminated by a closing brace. -/
def parseJsonMembers : Nat → List Char → Option (List (String × Json) × List Char)
  | 0, _ => none
  | fuel + 1, s =>
    match s with
    | '"' :: cs =>
      match scanString cs with
      | none => none
      | some (k, r1) =>
        match skipJsonWs r1 with
        | ':' :: r2 =>
          match parseJsonValue fuel (skipJsonWs r2) with
          | none => none
          | some (v, r3) =>
            match skipJsonWs r3 with
            | ',' :: r4 =>
              match parseJsonMembers fuel (skipJsonWs r4) with
              | none => none
              | some (ms, rest) => some ((k, v) :: ms, rest)
            | '}' :: r4 => some ([(k, v)], r4)
            | _ => none
        | _ => none
    | _ => none

end

/-- Syntax phase of `serde_json::from_str`: parse the whole input as one
JSON value; an empty or malformed input is an error, as is trailing
input. -/
def jsonParse (s : String) : Except String Json :=
  let cs := skipJsonWs s.data
  match parseJsonValue (cs.length + 1) cs with
  | none => .error "expected value"
  | some (v, rest) =>
    if (skipJsonWs rest).isEmpty then .ok v else .error "trailing characters"

/-- A `serde::de::DeserializeOwned` instance for a result type: how a
parsed JSON value maps into the type (or a diagnostic). -/
structure Decoder (α : Type) where
  decode : Json → Except String α

/-- serde_json `from_str::<T>`: parse the text, then run `T`'s
deserialization; either failure is the serde_json error. -/
def from_str {α : Type} (dec : Decoder α) (s : String) : Except String α :=
  match jsonParse s with
  | .error e => .error e
  | .ok v => dec.decode v

/-! ## Error taxonomy (`src/error.rs`, partially spec-modelled)

`client.rs` constructs `Error::Validation(String)`,
`Error::Reqwest(reqwest::Error)`, `Error::Serialization(serde_json::Error)`
and `Error::from_response(status, raw_body)`.  The enum itself and
`from_response` live in `error.rs`, which is not among the available
sources, so `from_response` is modelled from the spec below. -/

inductive HttpErrorKind where
  | notFound
  | clientError
  | serverError
  | other
  deriving Repr, DecidableEq

/-- Error type of the crate.  `validation` carries the message built in
`client.rs`; `reqwest` wraps a transport-layer error rendering;
`serialization` wraps the serde_json diagnostic (and nothing else);
`http` is the classified non-2xx response error. -/
inductive Error where
  | validation (msg : String)
  | reqwest (msg : String)
  | serialization (diagnostic : String)
  | http (status : Nat) (kind : HttpErrorKind) (rawBody : String)
  deriving Repr, DecidableEq

/-- Modelled from the spec: `Error::from_response` is defined in
`error.rs`, which is not under the available sources.  Spec section 4.2 and
section 7: a non-2xx status is classified by status code (404 as not-found,
other 4xx as client errors, 5xx as server errors), the raw body is attached
verbatim, and the classifier never fails. -/
def Error.from_response (status : Nat) (body : String) : Error :=
  if status = 404 then .http status .notFound body
  else if 400 ≤ status ∧ status ≤ 499 then .http status .clientError body
  else if 500 ≤ status then .http status .serverError body
  else .http status .other body

/-! ## Request executor (`src/client.rs`)

Requests are explicit records; the transport collaborator (`reqwest`) is a
function from a request to a response or a transport failure.  Every
operation returns its result together with the list of requests it issued,
so that transport-call counts are part of the embedding. -/

structure Response where
  status : Nat
  body : String
  deriving Repr, DecidableEq

structure Request where
  method : String
  url : String
  query : List (String × String)
  body : Option String
  deriving Repr, DecidableEq

def Transport : Type := Request → Except String Response

/-- Auth decorator capability (`auth.apply_to_request`). -/
def Auth : Type := Request → Request

/-- reqwest `StatusCode::is_success`: status in `[200, 300)`. -/
def isSuccess (status : Nat) : Bool :=
  decide (200 ≤ status) && decide (status < 300)

structure Client where
  base_url : String
  default_college_id : Option Nat
  deriving Repr, DecidableEq

def Client.new (base_url : String) : Client := ⟨base_url, none⟩

def Client.with_college (c : Client) (college_id : Nat) : Client :=
  ⟨c.base_url, some college_id⟩

/-- Executor `Client::get_json<T>`: GET `base_url ++ path`; on 2xx decode the raw
body (mapping a serde_json failure to `Error::Serialization`), otherwise
classify through `Error::from_response`.  There is no empty-body special
case on this path. -/
def Client.get_json {α : Type} (c : Client) (t : Transport) (path : String)
    (dec : Decoder α) : Except Error α × List Request :=
  let req : Request := ⟨"GET", c.base_url ++ path, [], none⟩
  match t req with
  | .error e => (.error (.reqwest e), [req])
  | .ok resp =>
    if isSuccess resp.status then
      match from_str dec resp.body with
      | .error e => (.error (.serialization e), [req])
      | .ok v => (.ok v, [req])
    else
      (.error (Error.from_response resp.status resp.body), [req])

/-- Response funnel `Client::handle_response<T>` (shared by POST and DELETE): on 2xx an
empty body is decoded as the JSON literal `null`, a non-empty body as
itself; non-2xx goes to `Error::from_response`. -/
def Client.handle_response {α : Type} (resp : Response) (dec : Decoder α) :
    Except Error α :=
  if isSuccess resp.status then
    if resp.body = "" then
      match from_str dec "null" with
      | .error e => .error (.serialization e)
      | .ok v => .ok v
    else
      match from_str dec resp.body with
      | .error e => .error (.serialization e)
      | .ok v => .ok v
  else
    .error (Error.from_response resp.status resp.body)

/-- Executor `Client::post_json<T, B>`: apply the optional auth decorator and body,
send, then delegate to `handle_response`. -/
def Client.post_json {α : Type} (c : Client) (t : Transport) (path : String)
    (body : Option String) (auth : Option Auth) (dec : Decoder α) :
    Except Error α × List Request :=
  let req0 : Request := ⟨"POST", c.base_url ++ path, [], none⟩
  let req1 := match auth with
    | some a => a req0
    | none => req0
  let req := match body with
    | some b => { req1 with body := some b }
    | none => req1
  match t req with
  | .error e => (.error (.reqwest e), [req])
  | .ok resp => (Client.handle_response resp dec, [req])

/-- Executor `Client::delete_json<T>`: apply the optional auth decorator, send,
then delegate to `handle_response`. -/
def Client.delete_json {α : Type} (c : Client) (t : Transport) (path : String)
    (auth : Option Auth) (dec : Decoder α) : Except Error α × List Request :=
  let req0 : Request := ⟨"DELETE", c.base_url ++ path, [], none⟩
  let req := match auth with
    | some a => a req0
    | none => req0
  match t req with
  | .error e => (.error (.reqwest e), [req])
  | .ok resp => (Client.handle_response resp dec, [req])

/-! ## Percent encodings

`CollegesQuery::send` attaches its filter through reqwest's
`RequestBuilder::query`, which serialises pairs with
`www-form-urlencoded` rules (space becomes `+`; alphanumerics and
`*`, `-`, `.`, `_` stay; every other byte is `%XX` with uppercase hex).
`CampusesQuery::send` interpolates `urlencoding::encode(&name)` directly
into the path (space becomes `%20`; alphanumerics and `-`, `.`, `_`, `~`
stay).  Both operate on the UTF-8 bytes of the string. -/

def utf8EncodeNat (n : Nat) : List Nat :=
  if n < 128 then [n]
  else if n < 2048 then [192 + n / 64, 128 + n % 64]
  else if n < 65536 then [224 + n / 4096, 128 + n / 64 % 64, 128 + n % 64]
  else [240 + n / 262144, 128 + n / 4096 % 64, 128 + n / 64 % 64, 128 + n % 64]

def utf8Bytes (s : String) : List Nat := s.data.flatMap (fun c => utf8EncodeNat c.toNat)

def hexUpper (d : Nat) : Char :=
  if d < 10 then Char.ofNat (48 + d) else Char.ofNat (55 + d)

def isAsciiAlphanum (b : Nat) : Bool :=
  decide (48 ≤ b ∧ b ≤ 57) || decide (65 ≤ b ∧ b ≤ 90) || decide (97 ≤ b ∧ b ≤ 122)

/-- Byte serialisation of the `urlencoding` crate's `encode`. -/
def urlencodeByte (b : Nat) : List Char :=
  if isAsciiAlphanum b || b == 45 || b == 46 || b == 95 || b == 126 then
    [Char.ofNat b]
  else
    ['%', hexUpper (b / 16), hexUpper (b % 16)]

/-- Encoder `urlencoding::encode`, as used by `CampusesQuery::send`. -/
def urlencoding.encode (s : String) : String :=
  String.mk ((utf8Bytes s).flatMap urlencodeByte)

/-- Byte serialisation of `form_urlencoded` (the `url` crate), which
reqwest's `RequestBuilder::query` uses. -/
def formUrlencodeByte (b : Nat) : List Char :=
  if b == 32 then ['+']
  else if isAsciiAlphanum b || b == 42 || b == 45 || b == 46 || b == 95 then
    [Char.ofNat b]
  else
    ['%', hexUpper (b / 16), hexUpper (b % 16)]

def formUrlencode (s : String) : String :=
  String.mk ((utf8Bytes s).flatMap formUrlencodeByte)

/-- Ampersand-joined serialisation of query pairs, each key and value
form-urlencoded (the `url` crate's query serialiser). -/
def joinQueryPairs : List (String × String) → String
  | [] => ""
  | [p] => formUrlencode p.1 ++ "=" ++ formUrlencode p.2
  | p :: ps => formUrlencode p.1 ++ "=" ++ formUrlencode p.2 ++ "&" ++ joinQueryPairs ps

/-- Full URL reqwest builds from a request's URL and query pairs:
`RequestBuilder::query` appends `?k=v&...` with form-urlencoding. -/
def Request.fullUrl (r : Request) : String :=
  match r.query with
  | [] => r.url
  | ps => r.url ++ "?" ++ joinQueryPairs ps

/-! ## Query builders (`src/api/colleges.rs`, `src/api/groups.rs`)

Canonical builder types: `api/mod.rs` compiles `colleges.rs` and
`groups.rs` (the `CampusesQuery`/`CampusQuery` re-exports point into
`colleges.rs`; `api/campuses.rs` is not declared as a module).  The Rust
setter `name` collides with the field accessor in Lean, so it is named
`filter_name` here.  The terminal operations are generic over the success
decoder, which Rust instantiates at the entity types. -/

structure CollegesQuery where
  client : Client
  name : Option String
  deriving Repr, DecidableEq

def CollegesQuery.new (client : Client) : CollegesQuery := ⟨client, none⟩

def Client.colleges (c : Client) : CollegesQuery := CollegesQuery.new c

/-- Setter `CollegesQuery::name`. -/
def CollegesQuery.filter_name (q : CollegesQuery) (n : String) : CollegesQuery :=
  ⟨q.client, some n⟩

/-- Terminal `CollegesQuery::send`: GET `base_url ++ "/colleges"`, the name filter
attached through `RequestBuilder::query` only when set.  Transport and
decode failures propagate with `?`, whose `From<reqwest::Error>`
conversion lands in the `Reqwest` variant (the only variant able to hold a
`reqwest::Error`); a decode failure of `Response::json` renders as
reqwest's "error decoding response body" message and the body is already
consumed, so no raw body is available to the error. -/
def CollegesQuery.send {α : Type} (q : CollegesQuery) (t : Transport)
    (dec : Decoder α) : Except Error α × List Request :=
  let req : Request :=
    { method := "GET"
      url := q.client.base_url ++ "/colleges"
      query := match q.name with
        | some n => [("name", n)]
        | none => []
      body := none }
  match t req with
  | .error e => (.error (.reqwest e), [req])
  | .ok resp =>
    if isSuccess resp.status then
      match from_str dec resp.body with
      | .error _ => (.error (.reqwest "error decoding response body"), [req])
      | .ok v => (.ok v, [req])
    else
      (.error (Error.from_response resp.status resp.body), [req])

structure CollegeQuery where
  client : Client
  college_id : Nat
  deriving Repr, DecidableEq

def CollegeQuery.new (client : Client) (college_id : Nat) : CollegeQuery :=
  ⟨client, college_id⟩

/-- Terminal `CollegeQuery::get`: delegates to `get_json("/colleges/{id}")`. -/
def CollegeQuery.get {α : Type} (q : CollegeQuery) (t : Transport)
    (dec : Decoder α) : Except Error α × List Request :=
  q.client.get_json t ("/colleges/" ++ toString q.college_id) dec

structure CampusesQuery where
  client : Client
  college_id : Nat
  name : Option String
  deriving Repr, DecidableEq

def CampusesQuery.new (client : Client) (college_id : Nat) : CampusesQuery :=
  ⟨client, college_id, none⟩

/-- Setter `CampusesQuery::name` (in `colleges.rs`). -/
def CampusesQuery.filter_name (q : CampusesQuery) (n : String) : CampusesQuery :=
  ⟨q.client, q.college_id, some n⟩

/-- Path `CampusesQuery::send` builds before delegating to `get_json`:
the name filter is appended as `?name={urlencoding::encode(name)}` only
when set. -/
def CampusesQuery.sendPath (q : CampusesQuery) : String :=
  let url := "/colleges/" ++ toString q.college_id ++ "/campuses"
  match q.name with
  | some n => url ++ "?name=" ++ urlencoding.encode n
  | none => url

/-- Terminal `CampusesQuery::send` (in `colleges.rs`): delegates to `get_json`. -/
def CampusesQuery.send {α : Type} (q : CampusesQuery) (t : Transport)
    (dec : Decoder α) : Except Error α × List Request :=
  q.client.get_json t q.sendPath dec

structure CampusQuery where
  client : Client
  campus_id : Nat
  deriving Repr, DecidableEq

def CampusQuery.new (client : Client) (campus_id : Nat) : CampusQuery :=
  ⟨client, campus_id⟩

/-- Path `CampusQuery::get` requests. -/
def CampusQuery.getPath (q : CampusQuery) : String :=
  "/campuses/" ++ toString q.campus_id

/-- Terminal `CampusQuery::get` (in `colleges.rs`): delegates to
`get_json("/campuses/{campus_id}")` — the college id never enters. -/
def CampusQuery.get {α : Type} (q : CampusQuery) (t : Transport)
    (dec : Decoder α) : Except Error α × List Request :=
  q.client.get_json t q.getPath dec

/-! ## Default-scope resolver (`Client::college`, `Client::campuses`,
`Client::campus` in `src/client.rs`)

These are synchronous builder constructors; their bodies contain no
transport invocation, so their request traces are empty by construction. -/

/-- Resolver `Client::college`: requires the default college id and scopes to it. -/
def Client.college (c : Client) : Except Error CollegeQuery × List Request :=
  match c.default_college_id with
  | none =>
    (.error (.validation "No default college set. Use client.with_college() first"), [])
  | some id => (.ok (CollegeQuery.new c id), [])

/-- Resolver `Client::campuses`: requires the default college id and scopes to it. -/
def Client.campuses (c : Client) : Except Error CampusesQuery × List Request :=
  match c.default_college_id with
  | none => (.error (.validation "No default college set"), [])
  | some id => (.ok (CampusesQuery.new c id), [])

/-- Resolver `Client::campus`: requires a default college id to be present but
discards its value (`let _ = ...`); the query is scoped by `campus_id`
alone. -/
def Client.campus (c : Client) (campus_id : Nat) :
    Except Error CampusQuery × List Request :=
  match c.default_college_id with
  | none =>
    (.error (.validation "No default college set. Use client.with_college() first"), [])
  | some _ => (.ok (CampusQuery.new c campus_id), [])

/-! ## Entity models (`src/models/group.rs`, `src/models/campus.rs`)

The derived `Deserialize` impls, written as decoders from JSON values:
every listed field is required unless marked `#[serde(default)]`; field
names follow the `#[serde(rename = ...)]` attributes. -/

structure Group where
  id : Nat
  name : String
  campus_id : Nat
  deriving Repr, DecidableEq

structure Campus where
  id : Nat
  name : String
  college_id : Nat
  groups : List Group
  deriving Repr, DecidableEq

def u32Max : Nat := 4294967295

/-- serde deserialization of a `u32` from a JSON value. -/
def decodeU32 : Json → Except String Nat
  | .num n =>
    if 0 ≤ n ∧ n ≤ (u32Max : Int) then .ok n.toNat
    else .error "invalid value: integer out of range for u32"
  | _ => .error "invalid type: expected u32"

def decodeString : Json → Except String String
  | .str s => .ok s
  | _ => .error "invalid type: expected a string"

/-- Required struct field: absent means a missing-field error. -/
def requireField {α : Type} (fields : List (String × Json)) (k : String)
    (d : Json → Except String α) : Except String α :=
  match fields.lookup k with
  | none => .error ("missing field " ++ k)
  | some j => d j

/-- Derived `Deserialize` for `Group`: fields `studentGroupId` (renamed),
`name`, `campusId` (renamed), all required. -/
def decodeGroup (j : Json) : Except String Group :=
  match j with
  | .obj fields => do
    let id ← requireField fields "studentGroupId" decodeU32
    let nm ← requireField fields "name" decodeString
    let cid ← requireField fields "campusId" decodeU32
    return ⟨id, nm, cid⟩
  | _ => .error "invalid type: expected struct Group"

def decodeJsonList {α : Type} (d : Json → Except String α) :
    Json → Except String (List α)
  | .arr xs => xs.mapM d
  | _ => .error "invalid type: expected a sequence"

/-- Derived `Deserialize` for `Campus`: fields `campusId` (renamed),
`name`, `collegeId` (renamed) required; `groups` carries
`#[serde(default)]`, so its absence yields `Vec::default()`, the empty
vector. -/
def decodeCampus (j : Json) : Except String Campus :=
  match j with
  | .obj fields => do
    let id ← requireField fields "campusId" decodeU32
    let nm ← requireField fields "name" decodeString
    let cid ← requireField fields "collegeId" decodeU32
    let gs ← match fields.lookup "groups" with
      | none => .ok []
      | some gj => decodeJsonList decodeGroup gj
    return ⟨id, nm, cid, gs⟩
  | _ => .error "invalid type: expected struct Campus"

def campusDecoder : Decoder Campus := ⟨decodeCampus⟩

/-- serde deserialization of `()` (the unit/null success type DELETE and
POST terminals use for no-content responses): only `null` decodes. -/
def unitDecoder : Decoder Unit :=
  ⟨fun j =>
    match j with
    | .null => .ok ()
    | _ => .error "invalid type: expected null"⟩

/-! ### Sanity checks on the embedded definitions -/

example : date_serde.deserialize "2025-11-15" = some ⟨2025, 11, 15, 0, 0, 0⟩ := by decide

example : date_serde.serialize ⟨2025, 11, 15, 7, 30, 2⟩ = "2025-11-15" := by
  simp [date_serde.serialize, formatYearChars, padList, natToDecimal, Nat.digitChar]

example : date_serde.deserialize "15-11-2025" = none := by decide

example : date_serde.deserialize "" = none := by decide

example : date_serde.deserialize "2025-13-40" = none := by decide

example : date_serde.deserialize "2025-1-5" = some ⟨2025, 1, 5, 0, 0, 0⟩ := by decide

example : isValidDateString "2025-11-15" = true := by decide

example : isValidDateString "2025-1-5" = false := by decide

example : date_serde.serialize ⟨-5, 1, 5, 0, 0, 0⟩ = "-0005-01-05" := by
  simp [date_serde.serialize, formatYearChars, padList, natToDecimal, Nat.digitChar]

example : date_serde.deserialize "-0005-01-05" = some ⟨-5, 1, 5, 0, 0, 0⟩ := by decide

example : date_serde.deserialize "+12345-01-05" = some ⟨12345, 1, 5, 0, 0, 0⟩ := by decide

example : date_serde.deserialize "2024-02-29" = some ⟨2024, 2, 29, 0, 0, 0⟩ := by decide

example : date_serde.deserialize "2025-02-29" = none := by decide

example : jsonParse "null" = .ok .null := rfl

example : jsonParse "" = .error "expected value" := rfl

example : jsonParse " [1, 2] " = .ok (.arr [.num 1, .num 2]) := rfl

example :
    jsonParse "\x7b\"a\": 5, \"b\": \"x\"\x7d" =
      .ok (.obj [("a", .num 5), ("b", .str "x")]) := rfl

example : jsonParse "not json" = .error "expected value" := rfl

example : urlencoding.encode "Main St" = "Main%20St" := by decide

example : formUrlencode "Main St" = "Main+St" := by decide

example :
    from_str campusDecoder
      "\x7b\"campusId\": 3, \"name\": \"North\", \"collegeId\": 7\x7d" =
      .ok ⟨3, "North", 7, []⟩ := rfl

example : from_str unitDecoder "null" = .ok () := rfl

example : from_str unitDecoder "" = .error "expected value" := rfl

/-! ## Claims -/

/-! ### Digit, decimal-expansion and parser lemmas for the date codec -/

lemma toNat_of_isDigit {c : Char} (h : c.isDigit = true) :
    48 ≤ c.toNat ∧ c.toNat ≤ 57 := by
  simp only [Char.isDigit, Bool.and_eq_true, decide_eq_true_eq, UInt32.le_def,
    BitVec.le_def] at h
  exact h

lemma digitVal_lt_ten {c : Char} (h : c.isDigit = true) : digitVal c < 10 := by
  have hb := toNat_of_isDigit h
  unfold digitVal
  omega

/-- Helper: `takeDigits` with budget exactly the length of the leading digit block. -/
lemma takeDigits_exact {l : List Char} (hl : ∀ c ∈ l, c.isDigit = true)
    (r : List Char) : takeDigits l.length (l ++ r) = (l, r) := by
  induction l with
  | nil => rfl
  | cons c t ih =>
    have hc : c.isDigit = true := hl c (List.mem_cons_self c t)
    simp only [List.length_cons, List.cons_append, takeDigits, hc, if_true,
      List.append_eq]
    rw [ih (fun x hx => hl x (List.mem_cons_of_mem c hx))]

/-- Helper: `takeDigitsAll` consumes a digit block up to a non-digit boundary. -/
lemma takeDigitsAll_exact {l : List Char} (hl : ∀ c ∈ l, c.isDigit = true)
    {r : List Char} (hr : ∀ c rest, r = c :: rest → c.isDigit = false) :
    takeDigitsAll (l ++ r) = (l, r) := by
  induction l with
  | nil =>
    cases r with
    | nil => rfl
    | cons c rest =>
      have := hr c rest rfl
      simp [takeDigitsAll, this]
  | cons c t ih =>
    have hc : c.isDigit = true := hl c (List.mem_cons_self c t)
    simp only [List.cons_append, takeDigitsAll, hc, if_true, List.append_eq]
    rw [ih (fun x hx => hl x (List.mem_cons_of_mem c hx))]

lemma foldl_digits (l : List Char) (a : Nat) :
    List.foldl (fun x c => x * 10 + digitVal c) a l =
      a * 10 ^ l.length + digitsVal l := by
  induction l generalizing a with
  | nil => simp [digitsVal]
  | cons c t ih =>
    simp only [digitsVal, List.foldl_cons, List.length_cons]
    rw [ih (a * 10 + digitVal c), ih (0 * 10 + digitVal c)]
    ring

lemma digitsVal_cons (c : Char) (t : List Char) :
    digitsVal (c :: t) = digitVal c * 10 ^ t.length + digitsVal t := by
  have h2 : digitsVal (c :: t) =
      List.foldl (fun x c => x * 10 + digitVal c) (digitVal c) t := by
    simp [digitsVal]
  rw [h2, foldl_digits]

lemma digitsVal_lt {ds : List Char} (h : ∀ c ∈ ds, c.isDigit = true) :
    digitsVal ds < 10 ^ ds.length := by
  induction ds with
  | nil => simp [digitsVal]
  | cons c t ih =>
    have hc := digitVal_lt_ten (h c (List.mem_cons_self c t))
    have ht := ih (fun x hx => h x (List.mem_cons_of_mem c hx))
    rw [digitsVal_cons]
    simp only [List.length_cons]
    calc digitVal c * 10 ^ t.length + digitsVal t
        < digitVal c * 10 ^ t.length + 10 ^ t.length := by omega
      _ = (digitVal c + 1) * 10 ^ t.length := by ring
      _ ≤ 10 * 10 ^ t.length := Nat.mul_le_mul_right _ (by omega)
      _ = 10 ^ (t.length + 1) := by ring

lemma digitChar_digitVal {c : Char} (h : c.isDigit = true) :
    Nat.digitChar (digitVal c) = c := by
  have hb := toNat_of_isDigit h
  have hc : c = Char.ofNat c.toNat := (Char.ofNat_toNat c).symm
  have hv : c.toNat = 48 ∨ c.toNat = 49 ∨ c.toNat = 50 ∨ c.toNat = 51 ∨
      c.toNat = 52 ∨ c.toNat = 53 ∨ c.toNat = 54 ∨ c.toNat = 55 ∨
      c.toNat = 56 ∨ c.toNat = 57 := by omega
  rcases hv with hv | hv | hv | hv | hv | hv | hv | hv | hv | hv <;>
    (unfold digitVal; rw [hc, hv]; decide)

lemma digitVal_digitChar {d : Nat} (h : d < 10) :
    digitVal (Nat.digitChar d) = d := by
  interval_cases d <;> decide

lemma isDigit_digitChar {d : Nat} (h : d < 10) :
    (Nat.digitChar d).isDigit = true := by
  interval_cases d <;> decide

lemma natToDecimal_digits (n : Nat) :
    ∀ c ∈ natToDecimal n, c.isDigit = true := by
  induction n using Nat.strong_induction_on with
  | _ n ih =>
    rw [natToDecimal]
    by_cases h : n < 10
    · rw [dif_pos h]
      simp only [List.mem_singleton]
      rintro c rfl
      exact isDigit_digitChar h
    · rw [dif_neg h]
      simp only [List.mem_append, List.mem_singleton]
      rintro c (hc | rfl)
      · exact ih (n / 10) (Nat.div_lt_self (by omega) (by omega)) c hc
      · exact isDigit_digitChar (Nat.mod_lt _ (by omega))

lemma digitsVal_natToDecimal (n : Nat) : digitsVal (natToDecimal n) = n := by
  induction n using Nat.strong_induction_on with
  | _ n ih =>
    rw [natToDecimal]
    by_cases h : n < 10
    · rw [dif_pos h]
      simp [digitsVal, digitVal_digitChar h]
    · rw [dif_neg h]
      have hdv : digitsVal (natToDecimal (n / 10) ++ [Nat.digitChar (n % 10)]) =
          digitsVal (natToDecimal (n / 10)) * 10 + digitVal (Nat.digitChar (n % 10)) := by
        unfold digitsVal
        rw [List.foldl_append]
        rfl
      rw [hdv, ih (n / 10) (Nat.div_lt_self (by omega) (by omega)),
        digitVal_digitChar (Nat.mod_lt _ (by omega))]
      omega

lemma natToDecimal_length_pos (n : Nat) : 1 ≤ (natToDecimal n).length := by
  rw [natToDecimal]
  by_cases h : n < 10
  · rw [dif_pos h]
    simp
  · rw [dif_neg h]
    simp

lemma natToDecimal_length_le {n k : Nat} (h : n < 10 ^ k) :
    (natToDecimal n).length ≤ max 1 k := by
  induction k generalizing n with
  | zero =>
    interval_cases n
    simp [natToDecimal]
  | succ k ihk =>
    rw [natToDecimal]
    by_cases hn : n < 10
    · rw [dif_pos hn]
      simp
    · rw [dif_neg hn]
      simp only [List.length_append, List.length_singleton]
      have hdiv : n / 10 < 10 ^ k := by
        rw [Nat.div_lt_iff_lt_mul (by omega : (0:Nat) < 10)]
        calc n < 10 ^ (k + 1) := h
          _ = 10 ^ k * 10 := by ring
      have hlen := ihk hdiv
      have hk1 : 1 ≤ k := by
        by_contra hc
        have hk0 : k = 0 := by omega
        subst hk0
        simp at hdiv
        omega
      omega

lemma digitsVal_replicate_zero (k : Nat) (ds : List Char) :
    digitsVal (List.replicate k '0' ++ ds) = digitsVal ds := by
  induction k with
  | zero => rfl
  | succ k ih =>
    rw [List.replicate_succ, List.cons_append]
    exact ih

lemma padList_digits (w n : Nat) : ∀ c ∈ padList w n, c.isDigit = true := by
  intro c hc
  unfold padList at hc
  rcases List.mem_append.mp hc with hrep | hds
  · rw [List.eq_of_mem_replicate hrep]
    decide
  · exact natToDecimal_digits n c hds

lemma padList_length {w n : Nat} (hw : 1 ≤ w) (h : n < 10 ^ w) :
    (padList w n).length = w := by
  have hle : (natToDecimal n).length ≤ w := by
    have := natToDecimal_length_le h
    omega
  unfold padList
  simp only [List.length_append, List.length_replicate]
  omega

lemma digitsVal_padList (w n : Nat) : digitsVal (padList w n) = n := by
  unfold padList
  rw [digitsVal_replicate_zero, digitsVal_natToDecimal]

lemma digitsVal_inj {ds₁ : List Char} :
    ∀ {ds₂ : List Char}, (∀ c ∈ ds₁, c.isDigit = true) →
      (∀ c ∈ ds₂, c.isDigit = true) → ds₁.length = ds₂.length →
      digitsVal ds₁ = digitsVal ds₂ → ds₁ = ds₂ := by
  induction ds₁ with
  | nil =>
    intro ds₂ _ _ hlen _
    cases ds₂ with
    | nil => rfl
    | cons c t => simp at hlen
  | cons c t ih =>
    intro ds₂ h₁ h₂ hlen hval
    cases ds₂ with
    | nil => simp at hlen
    | cons c₂ t₂ =>
      have hlent : t.length = t₂.length := by
        simpa using hlen
      have hdc : c.isDigit = true := h₁ c (List.mem_cons_self c t)
      have hdc₂ : c₂.isDigit = true := h₂ c₂ (List.mem_cons_self c₂ t₂)
      have hdt : ∀ x ∈ t, x.isDigit = true :=
        fun x hx => h₁ x (List.mem_cons_of_mem c hx)
      have hdt₂ : ∀ x ∈ t₂, x.isDigit = true :=
        fun x hx => h₂ x (List.mem_cons_of_mem c₂ hx)
      have hb₁ : digitsVal t < 10 ^ t.length := digitsVal_lt hdt
      have hb₂ : digitsVal t₂ < 10 ^ t.length := hlent ▸ digitsVal_lt hdt₂
      rw [digitsVal_cons, digitsVal_cons, ← hlent] at hval
      have hB : 0 < 10 ^ t.length := pow_pos (by omega) _
      have hv : digitVal c = digitVal c₂ := by
        have e1 : (digitVal c * 10 ^ t.length + digitsVal t) / 10 ^ t.length =
            digitVal c := by
          rw [Nat.mul_comm, Nat.mul_add_div hB, Nat.div_eq_of_lt hb₁]
          omega
        have e2 : (digitVal c₂ * 10 ^ t.length + digitsVal t₂) / 10 ^ t.length =
            digitVal c₂ := by
          rw [Nat.mul_comm, Nat.mul_add_div hB, Nat.div_eq_of_lt hb₂]
          omega
        rw [← e1, ← e2, hval]
      have hc : c = c₂ := by
        rw [← digitChar_digitVal hdc, ← digitChar_digitVal hdc₂, hv]
      have ht : digitsVal t = digitsVal t₂ := by
        rw [hv] at hval
        exact Nat.add_left_cancel hval
      rw [hc, ih hdt hdt₂ hlent ht]

lemma padList_digitsVal_eq {w : Nat} {ds : List Char}
    (hd : ∀ c ∈ ds, c.isDigit = true) (hw : ds.length = w) (hw1 : 1 ≤ w) :
    padList w (digitsVal ds) = ds := by
  have hlt : digitsVal ds < 10 ^ w := hw ▸ digitsVal_lt hd
  exact digitsVal_inj (padList_digits w (digitsVal ds)) hd
    (by rw [padList_length hw1 hlt, hw]) (digitsVal_padList w (digitsVal ds))

lemma not_ws_of_isDigit {c : Char} (h : c.isDigit = true) :
    isWs c = false := by
  have hb := toNat_of_isDigit h
  simp only [isWs, Char.isWhitespace, Bool.or_eq_false_iff,
    decide_eq_false_iff_not]
  refine ⟨⟨⟨?_, ?_⟩, ?_⟩, ?_⟩ <;> (rintro rfl; simp at hb)

lemma ne_dash_of_isDigit {c : Char} (h : c.isDigit = true) : c ≠ '-' := by
  have hb := toNat_of_isDigit h
  rintro rfl
  simp at hb

lemma ne_plus_of_isDigit {c : Char} (h : c.isDigit = true) : c ≠ '+' := by
  have hb := toNat_of_isDigit h
  rintro rfl
  simp at hb

lemma trimLeft_of_not_ws {c : Char} (h : isWs c = false) (r : List Char) :
    trimLeft (c :: r) = c :: r := by
  simp [trimLeft, h]

lemma parseNum_exact {l : List Char} (hd : ∀ c ∈ l, c.isDigit = true)
    (hlen : 1 ≤ l.length) (hsmall : digitsVal l ≤ i64Max) (r : List Char) :
    parseNum l.length (l ++ r) = some (digitsVal l, r) := by
  unfold parseNum
  rw [takeDigits_exact hd r]
  have hne : l.isEmpty = false := by
    cases l with
    | nil => simp at hlen
    | cons c t => rfl
  simp [hne, hsmall]

lemma parseNumAll_exact {l : List Char} (hd : ∀ c ∈ l, c.isDigit = true)
    (hlen : 1 ≤ l.length) (hsmall : digitsVal l ≤ i64Max) {r : List Char}
    (hr : ∀ c rest, r = c :: rest → c.isDigit = false) :
    parseNumAll (l ++ r) = some (digitsVal l, r) := by
  unfold parseNumAll
  rw [takeDigitsAll_exact hd hr]
  have hne : l.isEmpty = false := by
    cases l with
    | nil => simp at hlen
    | cons c t => rfl
  simp [hne, hsmall]

lemma parseNumField_exact {l : List Char} (hd : ∀ c ∈ l, c.isDigit = true)
    (hlen : 1 ≤ l.length) (hsmall : digitsVal l ≤ i64Max) (r : List Char) :
    parseNumField l.length (l ++ r) = some (digitsVal l, r) := by
  unfold parseNumField
  cases l with
  | nil => simp at hlen
  | cons c t =>
    have hc : c.isDigit = true := hd c (List.mem_cons_self c t)
    rw [List.cons_append, trimLeft_of_not_ws (not_ws_of_isDigit hc),
      ← List.cons_append]
    exact parseNum_exact hd hlen hsmall r

lemma parseYearField_canonical {l : List Char} (hd : ∀ c ∈ l, c.isDigit = true)
    (hlen : l.length = 4) (r : List Char) :
    parseYearField (l ++ r) = some ((digitsVal l : Int), r) := by
  cases l with
  | nil => simp at hlen
  | cons c t =>
    have hc : c.isDigit = true := hd c (List.mem_cons_self c t)
    have hsmall : digitsVal (c :: t) ≤ i64Max := by
      have := digitsVal_lt hd
      rw [hlen] at this
      unfold i64Max
      omega
    unfold parseYearField
    rw [List.cons_append, trimLeft_of_not_ws (not_ws_of_isDigit hc)]
    simp only [ne_dash_of_isDigit hc, if_false, ne_plus_of_isDigit hc]
    rw [← List.cons_append, ← hlen,
      parseNum_exact hd (by rw [hlen]; omega) hsmall r]

lemma parseYearField_neg {l : List Char} (hd : ∀ c ∈ l, c.isDigit = true)
    (hlen : 1 ≤ l.length) (hsmall : digitsVal l ≤ i64Max) {r : List Char}
    (hr : ∀ c rest, r = c :: rest → c.isDigit = false) :
    parseYearField ('-' :: (l ++ r)) = some (-(digitsVal l : Int), r) := by
  unfold parseYearField
  rw [trimLeft_of_not_ws (by decide)]
  dsimp only
  rw [if_pos rfl]
  rw [parseNumAll_exact hd hlen hsmall hr]

lemma parseYearField_pos {l : List Char} (hd : ∀ c ∈ l, c.isDigit = true)
    (hlen : 1 ≤ l.length) (hsmall : digitsVal l ≤ i64Max) {r : List Char}
    (hr : ∀ c rest, r = c :: rest → c.isDigit = false) :
    parseYearField ('+' :: (l ++ r)) = some ((digitsVal l : Int), r) := by
  unfold parseYearField
  rw [trimLeft_of_not_ws (by decide)]
  dsimp only
  rw [if_neg (show ¬('+' : Char) = '-' by decide), if_pos rfl]
  rw [parseNumAll_exact hd hlen hsmall hr]

/-- Once the year item has consumed its digits and left
`-MM-DD 00:00:00`, the remaining items of `"%Y-%m-%d %H:%M:%S"` produce
the month, the day and the zero time fields. -/
lemma parseYmdHms_of_year {input : List Char} {y : Int} {P2m P2d : List Char}
    (hy : parseYearField input =
      some (y, '-' :: (P2m ++ '-' :: (P2d ++
        [' ', '0', '0', ':', '0', '0', ':', '0', '0']))))
    (h2m : ∀ c ∈ P2m, c.isDigit = true) (hlm2 : P2m.length = 2)
    (h2d : ∀ c ∈ P2d, c.isDigit = true) (hld : P2d.length = 2) :
    parseYmdHms input = some (y, digitsVal P2m, digitsVal P2d, 0, 0, 0) := by
  have hm : parseNumField 2 (P2m ++ '-' :: (P2d ++
      [' ', '0', '0', ':', '0', '0', ':', '0', '0'])) =
      some (digitsVal P2m, '-' :: (P2d ++
        [' ', '0', '0', ':', '0', '0', ':', '0', '0'])) := by
    have hsmall : digitsVal P2m ≤ i64Max := by
      have := digitsVal_lt h2m
      rw [hlm2] at this
      unfold i64Max
      omega
    rw [← hlm2]
    exact parseNumField_exact h2m (by omega) hsmall _
  have hdy : parseNumField 2 (P2d ++
      [' ', '0', '0', ':', '0', '0', ':', '0', '0']) =
      some (digitsVal P2d,
        [' ', '0', '0', ':', '0', '0', ':', '0', '0']) := by
    have hsmall : digitsVal P2d ≤ i64Max := by
      have := digitsVal_lt h2d
      rw [hld] at this
      unfold i64Max
      omega
    rw [← hld]
    exact parseNumField_exact h2d (by omega) hsmall _
  have hexp : ∀ (c : Char) (r : List Char), expectLit c (c :: r) = some r := by
    intro c r
    simp [expectLit]
  unfold parseYmdHms
  rw [hy]
  simp only [hexp, hm, hdy]
  rfl

lemma mem_pair {c a b : Char} (h : c ∈ [a, b]) : c = a ∨ c = b := by
  simpa using h

lemma digits_pair {a b : Char} (ha : a.isDigit = true) (hb : b.isDigit = true) :
    ∀ c ∈ [a, b], c.isDigit = true := by
  intro c hc
  rcases mem_pair hc with rfl | rfl <;> assumption

/-- Round-trip, direction one: every string matching the fixed
`YYYY-MM-DD` pattern deserializes, and serializing the result restores
the string. -/
lemma date_roundtrip_strings (s : String) (hvalid : isValidDateString s = true) :
    ∃ t : DateTime, date_serde.deserialize s = some t ∧
      date_serde.serialize t = s := by
  obtain ⟨data⟩ := s
  unfold isValidDateString at hvalid
  split at hvalid
  case h_2 => simp at hvalid
  case h_1 y3 y2 y1 y0 ha m1 m0 hb d1 d0 heq =>
    have hdata : data = [y3, y2, y1, y0, ha, m1, m0, hb, d1, d0] := heq
    subst hdata
    simp only [Bool.and_eq_true, decide_eq_true_eq, beq_iff_eq] at hvalid
    obtain ⟨⟨⟨⟨⟨⟨⟨⟨⟨⟨⟨⟨⟨hy3, hy2⟩, hy1⟩, hy0⟩, hm1⟩, hm0⟩, hd1⟩, hd0⟩,
      hha⟩, hhb⟩, hmo1⟩, hmo2⟩, hdd1⟩, hdd2⟩ := hvalid
    subst hha hhb
    have h4 : ∀ c ∈ [y3, y2, y1, y0], c.isDigit = true := by
      intro c hc
      simp only [List.mem_cons, List.not_mem_nil, or_false] at hc
      rcases hc with rfl | rfl | rfl | rfl <;> assumption
    have h2m : ∀ c ∈ [m1, m0], c.isDigit = true := digits_pair hm1 hm0
    have h2d : ∀ c ∈ [d1, d0], c.isDigit = true := digits_pair hd1 hd0
    have hy : parseYearField
        ([y3, y2, y1, y0] ++ ('-' :: ([m1, m0] ++ '-' :: ([d1, d0] ++
          [' ', '0', '0', ':', '0', '0', ':', '0', '0'])))) =
        some ((digitsVal [y3, y2, y1, y0] : Int),
          '-' :: ([m1, m0] ++ '-' :: ([d1, d0] ++
            [' ', '0', '0', ':', '0', '0', ':', '0', '0']))) :=
      parseYearField_canonical h4 rfl _
    have hp := parseYmdHms_of_year hy h2m rfl h2d rfl
    have hylt : digitsVal [y3, y2, y1, y0] < 10000 := by
      have := digitsVal_lt h4
      simpa using this
    have hdeser : date_serde.deserialize (String.mk
        [y3, y2, y1, y0, '-', m1, m0, '-', d1, d0]) =
        some ⟨(digitsVal [y3, y2, y1, y0] : Int), digitsVal [m1, m0],
          digitsVal [d1, d0], 0, 0, 0⟩ := by
      unfold date_serde.deserialize
      rw [show (String.mk [y3, y2, y1, y0, '-', m1, m0, '-', d1, d0]).data ++
          [' ', '0', '0', ':', '0', '0', ':', '0', '0'] =
          [y3, y2, y1, y0] ++ ('-' :: ([m1, m0] ++ '-' :: ([d1, d0] ++
            [' ', '0', '0', ':', '0', '0', ':', '0', '0']))) from rfl]
      rw [hp]
      dsimp only
      have h32 : i32Min ≤ (digitsVal [y3, y2, y1, y0] : Int) ∧
          (digitsVal [y3, y2, y1, y0] : Int) ≤ i32Max :=
        ⟨by simp only [i32Min]; omega, by simp only [i32Max]; omega⟩
      have hcal : chronoMinYear ≤ (digitsVal [y3, y2, y1, y0] : Int) ∧
          (digitsVal [y3, y2, y1, y0] : Int) ≤ chronoMaxYear ∧
          1 ≤ digitsVal [m1, m0] ∧ digitsVal [m1, m0] ≤ 12 ∧
          1 ≤ digitsVal [d1, d0] ∧
          digitsVal [d1, d0] ≤
            daysInMonth (digitsVal [y3, y2, y1, y0] : Int) (digitsVal [m1, m0]) ∧
          (0:Nat) ≤ 23 ∧ (0:Nat) ≤ 59 ∧ (0:Nat) ≤ 59 :=
        ⟨by simp only [chronoMinYear]; omega,
         by simp only [chronoMaxYear]; omega,
         hmo1, hmo2, hdd1, hdd2, by omega, by omega, by omega⟩
      rw [if_pos h32, if_pos hcal]
    refine ⟨_, hdeser, ?_⟩
    unfold date_serde.serialize formatYearChars
    rw [if_pos (⟨Int.natCast_nonneg _, by exact_mod_cast hylt⟩ :
      0 ≤ (digitsVal [y3, y2, y1, y0] : Int) ∧
        (digitsVal [y3, y2, y1, y0] : Int) < 10000)]
    rw [show ((digitsVal [y3, y2, y1, y0] : Int)).toNat =
        digitsVal [y3, y2, y1, y0] from Int.toNat_natCast _]
    rw [padList_digitsVal_eq h4
        (show ([y3, y2, y1, y0] : List Char).length = 4 from rfl) (by omega),
      padList_digitsVal_eq h2m
        (show ([m1, m0] : List Char).length = 2 from rfl) (by omega),
      padList_digitsVal_eq h2d
        (show ([d1, d0] : List Char).length = 2 from rfl) (by omega)]
    rfl

lemma daysInMonth_le (y : Int) (m : Nat) : daysInMonth y m ≤ 31 := by
  unfold daysInMonth
  split_ifs <;> omega

lemma padList_length_pos (w n : Nat) : 1 ≤ (padList w n).length := by
  unfold padList
  simp only [List.length_append, List.length_replicate]
  have := natToDecimal_length_pos n
  omega

/-- The year item of the parse inverts chrono's year formatting for every
representable year, leaving the rest of the input intact. -/
lemma parseYearField_formatYear {y : Int} (hy1 : chronoMinYear ≤ y)
    (hy2 : y ≤ chronoMaxYear) {r : List Char}
    (hr : ∀ c rest, r = c :: rest → c.isDigit = false) :
    parseYearField (formatYearChars y ++ r) = some (y, r) := by
  simp only [chronoMinYear] at hy1
  simp only [chronoMaxYear] at hy2
  unfold formatYearChars
  by_cases h0 : 0 ≤ y ∧ y < 10000
  · rw [if_pos h0]
    have hlt : y.toNat < 10000 := by omega
    have hl4 : (padList 4 y.toNat).length = 4 :=
      padList_length (by omega) (by norm_num; omega)
    rw [parseYearField_canonical (padList_digits 4 y.toNat) hl4 r,
      digitsVal_padList, Int.toNat_of_nonneg h0.1]
  · rw [if_neg h0]
    by_cases hneg : y < 0
    · rw [if_pos hneg]
      have hsmall : digitsVal (padList 4 y.natAbs) ≤ i64Max := by
        rw [digitsVal_padList]
        unfold i64Max
        omega
      rw [List.cons_append,
        parseYearField_neg (padList_digits 4 y.natAbs)
          (padList_length_pos 4 y.natAbs) hsmall hr,
        digitsVal_padList]
      congr 2
      omega
    · rw [if_neg hneg]
      have hsmall : digitsVal (padList 4 y.toNat) ≤ i64Max := by
        rw [digitsVal_padList]
        unfold i64Max
        omega
      rw [List.cons_append,
        parseYearField_pos (padList_digits 4 y.toNat)
          (padList_length_pos 4 y.toNat) hsmall hr,
        digitsVal_padList, Int.toNat_of_nonneg (by omega)]

/-- Round-trip, direction two: serializing any representable timestamp
and deserializing the result yields midnight of the same calendar date. -/
lemma date_roundtrip_timestamps (t : DateTime) (h : validDateTime t) :
    date_serde.deserialize (date_serde.serialize t) =
      some ⟨t.year, t.month, t.day, 0, 0, 0⟩ := by
  obtain ⟨hy1, hy2, hm1, hm2, hd1, hd2, hh, hmi, hs⟩ := h
  have hdlt : t.day < 100 := by
    have := daysInMonth_le t.year t.month
    omega
  have h2m := padList_digits 2 t.month
  have hlm : (padList 2 t.month).length = 2 :=
    padList_length (by omega) (by norm_num; omega)
  have h2d := padList_digits 2 t.day
  have hld : (padList 2 t.day).length = 2 :=
    padList_length (by omega) (by norm_num; omega)
  have hboundary : ∀ (c : Char) (rest : List Char),
      ('-' :: (padList 2 t.month ++ '-' :: (padList 2 t.day ++
        [' ', '0', '0', ':', '0', '0', ':', '0', '0']))) = c :: rest →
      c.isDigit = false := by
    intro c rest hEq
    cases hEq
    decide
  have hyear := parseYearField_formatYear hy1 hy2 hboundary
  have hp := parseYmdHms_of_year hyear h2m hlm h2d hld
  rw [digitsVal_padList, digitsVal_padList] at hp
  unfold date_serde.deserialize date_serde.serialize
  rw [show (String.mk (formatYearChars t.year ++
      '-' :: padList 2 t.month ++ '-' :: padList 2 t.day)).data ++
      [' ', '0', '0', ':', '0', '0', ':', '0', '0'] =
      formatYearChars t.year ++ ('-' :: (padList 2 t.month ++
        '-' :: (padList 2 t.day ++
          [' ', '0', '0', ':', '0', '0', ':', '0', '0']))) by
    simp [List.append_assoc]]
  rw [hp]
  dsimp only
  have h32 : i32Min ≤ t.year ∧ t.year ≤ i32Max := by
    simp only [chronoMinYear] at hy1
    simp only [chronoMaxYear] at hy2
    exact ⟨by simp only [i32Min]; omega, by simp only [i32Max]; omega⟩
  rw [if_pos h32,
    if_pos (⟨hy1, hy2, hm1, hm2, hd1, hd2, by omega, by omega, by omega⟩ :
      chronoMinYear ≤ t.year ∧ t.year ≤ chronoMaxYear ∧ 1 ≤ t.month ∧
        t.month ≤ 12 ∧ 1 ≤ t.day ∧ t.day ≤ daysInMonth t.year t.month ∧
        (0:Nat) ≤ 23 ∧ (0:Nat) ≤ 59 ∧ (0:Nat) ≤ 59)]

lemma strAppend_assoc (a b c : String) : a ++ b ++ c = a ++ (b ++ c) := by
  cases a with
  | mk xa =>
    cases b with
    | mk xb =>
      cases c with
      | mk xc =>
        show String.mk (xa ++ xb ++ xc) = String.mk (xa ++ (xb ++ xc))
        rw [List.append_assoc]

lemma from_str_empty {α : Type} (dec : Decoder α) :
    from_str dec "" = .error "expected value" := rfl

lemma from_str_null_unit : from_str unitDecoder "null" = .ok () := rfl

lemma isSuccess_eq_false_of_ge_400 {status : Nat} (h : 400 ≤ status) :
    isSuccess status = false := by
  simp only [isSuccess, Bool.and_eq_false_iff, decide_eq_false_iff_not]
  omega

lemma from_response_http_of_ge_400 {status : Nat} (h : 400 ≤ status) (body : String) :
    ∃ kind : HttpErrorKind,
      Error.from_response status body = .http status kind body := by
  unfold Error.from_response
  by_cases h404 : status = 404
  · exact ⟨.notFound, by simp [h404]⟩
  · by_cases hc : status ≤ 499
    · exact ⟨.clientError, by simp [h404, hc, h]⟩
    · exact ⟨.serverError, by
        have h5 : 500 ≤ status := by omega
        simp [h404, hc, h5]⟩

/-- Claim C1: the date codec round-trips — every string matching the
fixed `YYYY-MM-DD` calendar-date pattern deserializes successfully and
re-serializes to the identical string, and every representable UTC
timestamp serializes to a date string that deserializes to midnight UTC
of the same calendar date (time-of-day zeroed). -/
theorem date_codec_roundtrip :
    (∀ s : String, isValidDateString s = true →
      ∃ t : DateTime, date_serde.deserialize s = some t ∧
        date_serde.serialize t = s) ∧
    (∀ t : DateTime, validDateTime t →
      date_serde.deserialize (date_serde.serialize t) =
        some ⟨t.year, t.month, t.day, 0, 0, 0⟩) :=
  ⟨date_roundtrip_strings, date_roundtrip_timestamps⟩

/-- Claim C1 witness at `"2025-11-15"` and at an afternoon timestamp of
the same date. -/
theorem date_codec_roundtrip_witness :
    (isValidDateString "2025-11-15" = true ∧
     ∃ t : DateTime, date_serde.deserialize "2025-11-15" = some t ∧
       date_serde.serialize t = "2025-11-15") ∧
    (validDateTime ⟨2025, 11, 15, 7, 30, 2⟩ ∧
     date_serde.deserialize (date_serde.serialize ⟨2025, 11, 15, 7, 30, 2⟩) =
       some ⟨2025, 11, 15, 0, 0, 0⟩) :=
  ⟨⟨by decide, date_codec_roundtrip.1 "2025-11-15" (by decide)⟩,
   ⟨by decide, date_codec_roundtrip.2 ⟨2025, 11, 15, 7, 30, 2⟩ (by decide)⟩⟩

/-- Claim C2 counterexample: `"2025-1-5"` does not match the fixed
`YYYY-MM-DD` pattern, yet the deserializer accepts it (chrono's numeric
fields read one to `max` digits, not exactly the padded width), refuting
"it never succeeds by partial or lenient parsing". -/
theorem date_decode_strictness_counterexample :
    isValidDateString "2025-1-5" = false ∧
    date_serde.deserialize "2025-1-5" = some ⟨2025, 1, 5, 0, 0, 0⟩ := by decide

/-- Claim C2 (corrected): the deserializer fails on every input chrono's
`"%Y-%m-%d %H:%M:%S"` parse cannot read — including the spec's examples
`"15-11-2025"`, `""` and `"2025-13-40"` — but it is not strict to the
fixed pattern: width-flexible digit fields, leading whitespace and signed
years are accepted (e.g. `"2025-1-5"` and `" 2025-01-05"` both decode to
2025-01-05, and `"+2025-01-05"` decodes as well). -/
theorem date_decode_strictness_amended :
    date_serde.deserialize "15-11-2025" = none ∧
    date_serde.deserialize "" = none ∧
    date_serde.deserialize "2025-13-40" = none ∧
    date_serde.deserialize "2025-1-5" = some ⟨2025, 1, 5, 0, 0, 0⟩ ∧
    date_serde.deserialize " 2025-01-05" = some ⟨2025, 1, 5, 0, 0, 0⟩ ∧
    date_serde.deserialize "+2025-01-05" = some ⟨2025, 1, 5, 0, 0, 0⟩ := by decide

/-- Claim C3: for every response with status at least 400, every executor
operation (`get_json`, `post_json`, `delete_json` via `handle_response`,
and the builder terminal `CollegesQuery::send`) returns the classified
`Http` error carrying the original raw body verbatim, independently of
the success decoder — the body is never JSON-decoded into the success
type. -/
theorem http_error_classification {α : Type} (resp : Response)
    (h : 400 ≤ resp.status) (c : Client) (path : String) (dec : Decoder α)
    (q : CollegesQuery) (body : Option String) (auth : Option Auth) :
    ∃ kind : HttpErrorKind,
      Error.from_response resp.status resp.body = .http resp.status kind resp.body ∧
      (c.get_json (fun _ => .ok resp) path dec).1 =
        .error (Error.from_response resp.status resp.body) ∧
      Client.handle_response resp dec =
        .error (Error.from_response resp.status resp.body) ∧
      (c.post_json (fun _ => .ok resp) path body auth dec).1 =
        .error (Error.from_response resp.status resp.body) ∧
      (c.delete_json (fun _ => .ok resp) path auth dec).1 =
        .error (Error.from_response resp.status resp.body) ∧
      (q.send (fun _ => .ok resp) dec).1 =
        .error (Error.from_response resp.status resp.body) := by
  obtain ⟨kind, hkind⟩ := from_response_http_of_ge_400 h resp.body
  have hfail := isSuccess_eq_false_of_ge_400 h
  refine ⟨kind, hkind, ?_, ?_, ?_, ?_, ?_⟩
  · simp [Client.get_json, hfail]
  · simp [Client.handle_response, hfail]
  · simp [Client.post_json, Client.handle_response, hfail]
  · simp [Client.delete_json, Client.handle_response, hfail]
  · simp [CollegesQuery.send, hfail]

/-- Claim C3 witness at a concrete 404 response. -/
theorem http_error_classification_witness :
    400 ≤ 404 ∧
    ∃ kind : HttpErrorKind,
      Error.from_response 404 "\x7b\"error\":\"not found\"\x7d" =
        .http 404 kind "\x7b\"error\":\"not found\"\x7d" ∧
      ((Client.new "http://x").get_json
          (fun _ => .ok ⟨404, "\x7b\"error\":\"not found\"\x7d"⟩) "/campuses/1"
          unitDecoder).1 =
        .error (Error.from_response 404 "\x7b\"error\":\"not found\"\x7d") ∧
      Client.handle_response ⟨404, "\x7b\"error\":\"not found\"\x7d"⟩ unitDecoder =
        .error (Error.from_response 404 "\x7b\"error\":\"not found\"\x7d") ∧
      ((Client.new "http://x").post_json
          (fun _ => .ok ⟨404, "\x7b\"error\":\"not found\"\x7d"⟩) "/campuses/1" none none
          unitDecoder).1 =
        .error (Error.from_response 404 "\x7b\"error\":\"not found\"\x7d") ∧
      ((Client.new "http://x").delete_json
          (fun _ => .ok ⟨404, "\x7b\"error\":\"not found\"\x7d"⟩) "/campuses/1" none
          unitDecoder).1 =
        .error (Error.from_response 404 "\x7b\"error\":\"not found\"\x7d") ∧
      ((CollegesQuery.new (Client.new "http://x")).send
          (fun _ => .ok ⟨404, "\x7b\"error\":\"not found\"\x7d"⟩) unitDecoder).1 =
        .error (Error.from_response 404 "\x7b\"error\":\"not found\"\x7d") :=
  ⟨by decide,
   http_error_classification ⟨404, "\x7b\"error\":\"not found\"\x7d"⟩ (by decide)
     (Client.new "http://x") "/campuses/1" unitDecoder
     (CollegesQuery.new (Client.new "http://x")) none none⟩

/-- Claim C5: on a client without a default college id, each of
`Client::college`, `Client::campuses` and `Client::campus` fails
synchronously with the `Validation` error of `client.rs` and issues zero
transport requests. -/
theorem default_scope_validation (c : Client)
    (h : c.default_college_id = none) (campus_id : Nat) :
    c.college =
      (.error (.validation "No default college set. Use client.with_college() first"),
        []) ∧
    c.campuses = (.error (.validation "No default college set"), []) ∧
    c.campus campus_id =
      (.error (.validation "No default college set. Use client.with_college() first"),
        []) := by
  refine ⟨?_, ?_, ?_⟩ <;> simp [Client.college, Client.campuses, Client.campus, h]

/-- Claim C5 witness on a freshly constructed client. -/
theorem default_scope_validation_witness :
    (Client.new "https://api.example.com").default_college_id = none ∧
    ((Client.new "https://api.example.com").college =
      (.error (.validation "No default college set. Use client.with_college() first"),
        []) ∧
     (Client.new "https://api.example.com").campuses =
       (.error (.validation "No default college set"), []) ∧
     (Client.new "https://api.example.com").campus 1 =
       (.error (.validation "No default college set. Use client.with_college() first"),
         [])) :=
  ⟨by decide, default_scope_validation (Client.new "https://api.example.com") (by decide) 1⟩

/-- Claim C6 counterexample: with the name filter set to the empty string,
both collection builders do send an empty-valued `name` parameter
(`CampusesQuery` in the path it hands to `get_json`, `CollegesQuery` in
the query pairs reqwest serialises into the URL), refuting "an
empty-string name parameter is never sent". -/
theorem name_filter_counterexample :
    (CampusesQuery.filter_name (CampusesQuery.new (Client.new "http://x") 1) "").sendPath =
      "/colleges/1/campuses?name=" ∧
    ((CollegesQuery.filter_name (CollegesQuery.new (Client.new "http://x")) "").send
        (fun _ => .error "down") unitDecoder).2 =
      [⟨"GET", "http://x/colleges", [("name", "")], none⟩] ∧
    Request.fullUrl ⟨"GET", "http://x/colleges", [("name", "")], none⟩ =
      "http://x/colleges?name=" := by decide

/-- Claim C6 (corrected): for both collection builders the `name`
parameter appears in the request if and only if the filter was set, and
it is omitted entirely when unset; the value is encoded
(`urlencoding::encode` for `CampusesQuery`, form-urlencoding via reqwest
for `CollegesQuery`) — but a filter explicitly set to the empty string
does produce an empty-valued `name` parameter. -/
theorem name_filter_amended (c : Client) (cid : Nat) (n : String)
    (t : Transport) {α : Type} (dec : Decoder α) :
    (CampusesQuery.new c cid).sendPath =
      "/colleges/" ++ toString cid ++ "/campuses" ∧
    (CampusesQuery.filter_name (CampusesQuery.new c cid) n).sendPath =
      "/colleges/" ++ toString cid ++ "/campuses" ++ "?name=" ++
        urlencoding.encode n ∧
    ((CollegesQuery.new c).send t dec).2 =
      [⟨"GET", c.base_url ++ "/colleges", [], none⟩] ∧
    ((CollegesQuery.filter_name (CollegesQuery.new c) n).send t dec).2 =
      [⟨"GET", c.base_url ++ "/colleges", [("name", n)], none⟩] ∧
    Request.fullUrl ⟨"GET", c.base_url ++ "/colleges", [("name", n)], none⟩ =
      c.base_url ++ "/colleges" ++ "?name=" ++ formUrlencode n := by
  refine ⟨rfl, rfl, ?_, ?_, ?_⟩
  · rcases htr : t ⟨"GET", c.base_url ++ "/colleges", [], none⟩ with e | resp
    · simp [CollegesQuery.send, CollegesQuery.new, htr]
    · simp only [CollegesQuery.send, CollegesQuery.new, htr]
      split
      · rcases from_str dec resp.body with e | v <;> rfl
      · rfl
  · rcases htr : t ⟨"GET", c.base_url ++ "/colleges", [("name", n)], none⟩ with e | resp
    · simp [CollegesQuery.send, CollegesQuery.new, CollegesQuery.filter_name, htr]
    · simp only [CollegesQuery.send, CollegesQuery.new, CollegesQuery.filter_name, htr]
      split
      · rcases from_str dec resp.body with e | v <;> rfl
      · rfl
  · show c.base_url ++ "/colleges" ++ "?" ++
        (formUrlencode "name" ++ "=" ++ formUrlencode n) = _
    have hx : "?" ++ (formUrlencode "name" ++ "=" ++ formUrlencode n) =
        "?name=" ++ formUrlencode n := by
      cases hfn : formUrlencode n with
      | mk data => rfl
    rw [strAppend_assoc (c.base_url ++ "/colleges") "?", hx,
      strAppend_assoc (c.base_url ++ "/colleges") "?name="]

/-- Claim C7: on a 2xx response with an empty body, `handle_response`
(the POST and DELETE funnel) yields exactly the decoded result of the
JSON literal `null` — for any decoder it behaves as if the body had been
`"null"` — so the DELETE and POST terminals with the unit/null success
type succeed instead of failing to decode. -/
theorem empty_body_null_result {α : Type} (status : Nat)
    (h : isSuccess status = true) (dec : Decoder α) (c : Client)
    (path : String) (auth : Option Auth) (body : Option String) :
    Client.handle_response ⟨status, ""⟩ dec =
      Client.handle_response ⟨status, "null"⟩ dec ∧
    (c.delete_json (fun _ => .ok ⟨status, ""⟩) path auth unitDecoder).1 =
      .ok () ∧
    (c.post_json (fun _ => .ok ⟨status, ""⟩) path body auth unitDecoder).1 =
      .ok () := by
  refine ⟨?_, ?_, ?_⟩
  · simp [Client.handle_response, h]
  · simp [Client.delete_json, Client.handle_response, h, from_str_null_unit]
  · simp [Client.post_json, Client.handle_response, h, from_str_null_unit]

/-- Claim C7 witness at status 204. -/
theorem empty_body_null_result_witness :
    isSuccess 204 = true ∧
    (Client.handle_response ⟨204, ""⟩ unitDecoder =
      Client.handle_response ⟨204, "null"⟩ unitDecoder ∧
     ((Client.new "http://x").delete_json (fun _ => .ok ⟨204, ""⟩) "/groups/1"
         none unitDecoder).1 = .ok () ∧
     ((Client.new "http://x").post_json (fun _ => .ok ⟨204, ""⟩) "/groups/1"
         none none unitDecoder).1 = .ok ()) :=
  ⟨by decide,
   empty_body_null_result 204 (by decide) unitDecoder (Client.new "http://x")
     "/groups/1" none none⟩

/-- Claim C8 counterexample: a Campus payload without a `groups` field
decodes successfully to a campus with the empty default group list
(`#[serde(default)]`), refuting "fails decode with an explicit error". -/
theorem campus_default_groups_counterexample :
    from_str campusDecoder
      "\x7b\"campusId\": 1, \"name\": \"Main\", \"collegeId\": 2\x7d" =
      .ok ⟨1, "Main", 2, []⟩ := rfl

/-- Claim C8 (corrected): the derived Campus decoder fails with an
explicit missing-field error when any of the required fields `campusId`,
`name` or `collegeId` is absent, but an absent `groups` field is not an
error: `#[serde(default)]` substitutes the empty vector. -/
theorem campus_required_fields_amended (i cg : Nat) (hi : i ≤ u32Max)
    (hc : cg ≤ u32Max) (nm : String) :
    decodeCampus
        (.obj [("campusId", .num i), ("name", .str nm), ("collegeId", .num cg)]) =
      .ok ⟨i, nm, cg, []⟩ ∧
    decodeCampus (.obj [("name", .str nm), ("collegeId", .num cg)]) =
      .error "missing field campusId" ∧
    decodeCampus (.obj [("campusId", .num i), ("collegeId", .num cg)]) =
      .error "missing field name" ∧
    decodeCampus (.obj [("campusId", .num i), ("name", .str nm)]) =
      .error "missing field collegeId" := by
  have hi' : 0 ≤ (i : Int) ∧ (i : Int) ≤ (u32Max : Int) := by
    constructor <;> omega
  have hc' : 0 ≤ (cg : Int) ∧ (cg : Int) ≤ (u32Max : Int) := by
    constructor <;> omega
  refine ⟨?_, ?_, ?_, ?_⟩ <;>
    simp [decodeCampus, requireField, List.lookup, decodeU32, decodeString,
      hi', hc', Bind.bind, Except.bind, Pure.pure, Except.pure]

/-- Claim C8 witness at a concrete campus payload. -/
theorem campus_required_fields_amended_witness :
    1 ≤ u32Max ∧ 2 ≤ u32Max ∧
    (decodeCampus
        (.obj [("campusId", .num 1), ("name", .str "Main"), ("collegeId", .num 2)]) =
      .ok ⟨1, "Main", 2, []⟩ ∧
     decodeCampus (.obj [("name", .str "Main"), ("collegeId", .num 2)]) =
       .error "missing field campusId" ∧
     decodeCampus (.obj [("campusId", .num 1), ("collegeId", .num 2)]) =
       .error "missing field name" ∧
     decodeCampus (.obj [("campusId", .num 1), ("name", .str "Main")]) =
       .error "missing field collegeId") :=
  ⟨by decide, by decide,
   campus_required_fields_amended 1 2 (by decide) (by decide) "Main"⟩

/-- Claim C9: through `Client::get_json` a 2xx response with an empty body
always fails — for every success decoder — with the `Serialization` error
produced by parsing the empty string, while the empty-body-to-null
substitution of `handle_response` lets the DELETE and POST terminals
succeed on the same response. -/
theorem get_empty_body_fails {α : Type} (c : Client) (path : String)
    (status : Nat) (h : isSuccess status = true) (dec : Decoder α)
    (auth : Option Auth) :
    (c.get_json (fun _ => .ok ⟨status, ""⟩) path dec).1 =
      .error (.serialization "expected value") ∧
    (c.delete_json (fun _ => .ok ⟨status, ""⟩) path auth unitDecoder).1 =
      .ok () := by
  constructor
  · simp [Client.get_json, h, from_str_empty]
  · simp [Client.delete_json, Client.handle_response, h, from_str_null_unit]

/-- Claim C9 witness at status 200. -/
theorem get_empty_body_fails_witness :
    isSuccess 200 = true ∧
    (((Client.new "http://x").get_json (fun _ => .ok ⟨200, ""⟩) "/colleges"
        unitDecoder).1 = .error (.serialization "expected value") ∧
     ((Client.new "http://x").delete_json (fun _ => .ok ⟨200, ""⟩) "/colleges"
         none unitDecoder).1 = .ok ()) :=
  ⟨by decide,
   get_empty_body_fails (Client.new "http://x") "/colleges" 200 (by decide)
     unitDecoder none⟩

/-- Claim C10: the value of the default college id never influences a
campus lookup — two clients with the same base URL and any two present
default college ids both succeed in `Client::campus` and produce campus
queries that issue the identical `GET /campuses/{campus_id}` request. -/
theorem campus_ignores_default_value (c₁ c₂ : Client) (campus_id a b : Nat)
    (hurl : c₁.base_url = c₂.base_url)
    (h₁ : c₁.default_college_id = some a)
    (h₂ : c₂.default_college_id = some b)
    (t : Transport) {α : Type} (dec : Decoder α) :
    (c₁.campus campus_id).1 = .ok (CampusQuery.new c₁ campus_id) ∧
    (c₂.campus campus_id).1 = .ok (CampusQuery.new c₂ campus_id) ∧
    (CampusQuery.new c₁ campus_id).getPath =
      "/campuses/" ++ toString campus_id ∧
    (CampusQuery.new c₁ campus_id).get t dec =
      (CampusQuery.new c₂ campus_id).get t dec := by
  refine ⟨?_, ?_, rfl, ?_⟩
  · simp [Client.campus, h₁]
  · simp [Client.campus, h₂]
  · simp [CampusQuery.get, CampusQuery.getPath, Client.get_json,
      CampusQuery.new, hurl]

/-- Claim C10 witness: default college 1 versus default college 99. -/
theorem campus_ignores_default_value_witness :
    ((Client.new "http://x").with_college 1).base_url =
      ((Client.new "http://x").with_college 99).base_url ∧
    ((Client.new "http://x").with_college 1).default_college_id = some 1 ∧
    ((Client.new "http://x").with_college 99).default_college_id = some 99 ∧
    ((((Client.new "http://x").with_college 1).campus 7).1 =
      .ok (CampusQuery.new ((Client.new "http://x").with_college 1) 7) ∧
     (((Client.new "http://x").with_college 99).campus 7).1 =
       .ok (CampusQuery.new ((Client.new "http://x").with_college 99) 7) ∧
     (CampusQuery.new ((Client.new "http://x").with_college 1) 7).getPath =
       "/campuses/" ++ toString 7 ∧
     (CampusQuery.new ((Client.new "http://x").with_college 1) 7).get
         (fun _ => .error "down") unitDecoder =
       (CampusQuery.new ((Client.new "http://x").with_college 99) 7).get
         (fun _ => .error "down") unitDecoder) :=
  ⟨by decide, by decide, by decide,
   campus_ignores_default_value ((Client.new "http://x").with_college 1)
     ((Client.new "http://x").with_college 99) 7 1 99 (by decide) (by decide)
     (by decide) (fun _ => .error "down") unitDecoder⟩

end Osars
